import Mathlib

/-!
Shallow embedding of the streaming audio session core of the
Speech-to-Text-Translator repository (class `LiveService`).

The repository contains three variants of the service file:
* `src/services/liveService.ts` — embedded here with suffix `Main` (or no
  suffix when all variants agree),
* `src/unnamed/part_000` — suffix `Full` / `Clamped`,
* `src/unnamed/part_001` — suffix `Alt`.

JavaScript numbers that matter here (audio samples, times, durations) are
modelled as exact rationals; a sample value may also be NaN or ±Infinity,
hence the `JSVal` type.  All per-sample arithmetic performed by the code
(`Math.min`/`Math.max` with NaN propagation, multiplication by the integer
32767, and the `Int16Array` element-store conversion ToInt16) is exact on
this model.
-/

/-- A JavaScript number as it can appear in a `Float32Array`:
NaN, +Infinity, -Infinity, or a finite value (modelled exactly). -/
inductive JSVal where
  | nan : JSVal
  | posInf : JSVal
  | negInf : JSVal
  | num (q : ℚ) : JSVal
deriving DecidableEq

/-- `Math.min(a, x)` for a finite constant `a` — NaN propagates. -/
def jsMin (a : ℚ) : JSVal → JSVal
  | .nan => .nan
  | .posInf => .num a
  | .negInf => .negInf
  | .num q => .num (min a q)

/-- `Math.max(a, x)` for a finite constant `a` — NaN propagates. -/
def jsMax (a : ℚ) : JSVal → JSVal
  | .nan => .nan
  | .posInf => .posInf
  | .negInf => .num a
  | .num q => .num (max a q)

/-- `x * c` for a positive finite constant `c` (here 32767). -/
def jsMulConst (c : ℚ) : JSVal → JSVal
  | .nan => .nan
  | .posInf => .posInf
  | .negInf => .negInf
  | .num q => .num (q * c)

/-- Truncation toward zero of a rational, as JavaScript's ToInt16 does
before reducing modulo 2^16. -/
def jsTrunc (q : ℚ) : ℤ :=
  if 0 ≤ q then ⌊q⌋ else ⌈q⌉

/-- ECMAScript ToInt16: NaN and ±Infinity map to 0; a finite value is
truncated toward zero, reduced modulo 2^16 into [0, 65535], and values
at or above 2^15 are shifted down by 2^16. This is exactly the conversion
performed by storing into an `Int16Array` element. -/
def toInt16 : JSVal → ℤ
  | .num q =>
      let m := jsTrunc q % 65536
      if 32768 ≤ m then m - 65536 else m
  | _ => 0

/-- Per-sample conversion of `src/services/liveService.ts` line 120:
`int16[i] = data[i] * 32767;` — no clamping. -/
def encodeSampleMain (x : JSVal) : ℤ :=
  toInt16 (jsMulConst 32767 x)

/-- Per-sample conversion of `src/unnamed/part_000` line 151 and
`src/unnamed/part_001` line 139:
`int16[i] = Math.max(-1, Math.min(1, data[i])) * 32767;`. -/
def encodeSampleClamped (x : JSVal) : ℤ :=
  toInt16 (jsMulConst 32767 (jsMax (-1) (jsMin 1 x)))

/-- The per-sample conversion as the specification words it (§4.1):
"each sample is clamped to [-1.0, 1.0], scaled to a signed 16-bit integer
range" — clamp, then scale, then truncate to an integer; no modulo-2^16
wrap-around is involved because the clamped product already lies in the
signed 16-bit range. Non-finite inputs convert to 0 as in the code. -/
def specClampScale : JSVal → ℤ
  | .nan => 0
  | .posInf => jsTrunc (max (-1) (min 1 (1 : ℚ)) * 32767)
  | .negInf => jsTrunc (max (-1 : ℚ) (-1) * 32767)
  | .num q => jsTrunc (max (-1) (min 1 q) * 32767)

/-- Little-endian byte pair of a signed 16-bit value, as laid out in the
`Int16Array` buffer wrapped into a `Uint8Array`. -/
def int16LEBytes (v : ℤ) : List ℕ :=
  let u := (v % 65536).toNat
  [u % 256, u / 256]

/-- Byte payload of `createPcmBlob` in `src/services/liveService.ts`
(lines 118-122): scale without clamping, store into an `Int16Array`,
view as bytes. (The base64 transport encoding applied afterwards is not
modelled; the claim is about the PCM byte sequence.) -/
def createPcmBlobMain (data : List JSVal) : List ℕ :=
  (data.map encodeSampleMain).flatMap int16LEBytes

/-- Byte payload of `createPcmBlob` in `src/unnamed/part_000`
(lines 147-157) and `src/unnamed/part_001` (lines 134-145):
clamp, scale, store into an `Int16Array`, view as bytes. -/
def createPcmBlobClamped (data : List JSVal) : List ℕ :=
  (data.map encodeSampleClamped).flatMap int16LEBytes

-- ### Helper lemmas about the sample conversions

theorem toInt16_range (x : JSVal) : -32768 ≤ toInt16 x ∧ toInt16 x ≤ 32767 := by
  cases x <;> simp only [toInt16]
  · exact ⟨by norm_num, by norm_num⟩
  · exact ⟨by norm_num, by norm_num⟩
  · exact ⟨by norm_num, by norm_num⟩
  · rename_i q
    have h1 : 0 ≤ jsTrunc q % 65536 := Int.emod_nonneg _ (by norm_num)
    have h2 : jsTrunc q % 65536 < 65536 := Int.emod_lt_of_pos _ (by norm_num)
    constructor <;> [skip; skip] <;> split <;> omega

theorem toInt16_eq_self {n : ℤ} (h1 : -32768 ≤ n) (h2 : n ≤ 32767) (q : ℚ)
    (hq : jsTrunc q = n) : toInt16 (.num q) = n := by
  simp only [toInt16, hq]
  omega

theorem jsTrunc_bounds {q : ℚ} {a b : ℤ} (ha : (a : ℚ) ≤ q) (hb : q ≤ (b : ℚ))
    (ha0 : a ≤ 0) (hb0 : 0 ≤ b) : a ≤ jsTrunc q ∧ jsTrunc q ≤ b := by
  unfold jsTrunc
  split
  · rename_i h0
    constructor
    · calc a ≤ 0 := ha0
        _ ≤ ⌊q⌋ := by
            have : (0 : ℤ) = ⌊(0 : ℚ)⌋ := by norm_num
            rw [this]; exact Int.floor_le_floor h0
    · have : ⌊q⌋ ≤ ⌊(b : ℚ)⌋ := Int.floor_le_floor hb
      simpa using this
  · rename_i h0
    constructor
    · have : ⌈(a : ℚ)⌉ ≤ ⌈q⌉ := Int.ceil_le_ceil ha
      simpa using this
    · calc ⌈q⌉ ≤ ⌈(0 : ℚ)⌉ := Int.ceil_le_ceil (le_of_not_le h0)
        _ = 0 := by norm_num
        _ ≤ b := hb0

/-- The clamped product `clamp(x) * 32767` lies in [-32767, 32767]. -/
theorem clamped_product_bounds (q : ℚ) :
    (-32767 : ℚ) ≤ max (-1) (min 1 q) * 32767 ∧
      max (-1) (min 1 q) * 32767 ≤ 32767 := by
  have h1 : (-1 : ℚ) ≤ max (-1) (min 1 q) := le_max_left _ _
  have h2 : max (-1) (min 1 q) ≤ 1 := by
    apply max_le (by norm_num)
    exact min_le_left _ _
  constructor <;> nlinarith

/-- `toInt16` of a finite value already in [-32767, 32767] stays there. -/
theorem toInt16_num_range {q : ℚ} (h1 : (-32767 : ℚ) ≤ q) (h2 : q ≤ 32767) :
    -32767 ≤ toInt16 (.num q) ∧ toInt16 (.num q) ≤ 32767 := by
  have hb := jsTrunc_bounds (a := -32767) (b := 32767)
    (by exact_mod_cast h1) (by exact_mod_cast h2) (by norm_num) (by norm_num)
  simp only [toInt16]
  constructor <;> [skip; skip] <;> split <;> omega

/-- The clamped per-sample conversion always produces a value in
[-32767, 32767]; in particular -32768 is never produced. -/
theorem encodeSampleClamped_range (x : JSVal) :
    -32767 ≤ encodeSampleClamped x ∧ encodeSampleClamped x ≤ 32767 := by
  cases x <;> simp only [encodeSampleClamped, jsMin, jsMax, jsMulConst]
  · exact ⟨by norm_num [toInt16], by norm_num [toInt16]⟩
  · exact toInt16_num_range (by norm_num) (by norm_num)
  · exact toInt16_num_range (by norm_num) (by norm_num)
  case num q =>
    exact toInt16_num_range (clamped_product_bounds q).1 (clamped_product_bounds q).2

theorem jsTrunc_intCast (n : ℤ) : jsTrunc (n : ℚ) = n := by
  unfold jsTrunc
  split
  · exact Int.floor_intCast n
  · exact Int.ceil_intCast n

/-- When the truncated value is already in signed 16-bit range, the
ToInt16 wrap-around is the identity. -/
theorem toInt16_num_eq_jsTrunc {q : ℚ} (h1 : -32768 ≤ jsTrunc q)
    (h2 : jsTrunc q ≤ 32767) : toInt16 (.num q) = jsTrunc q := by
  simp only [toInt16]
  omega

/-- The clamped encoder of `part_000`/`part_001` computes exactly the
specification's clamp-then-scale function: the modulo-2^16 store is the
identity because the clamped product is already in range. -/
theorem encodeSampleClamped_eq_spec (x : JSVal) :
    encodeSampleClamped x = specClampScale x := by
  have key : ∀ q : ℚ, toInt16 (.num (max (-1) (min 1 q) * 32767)) =
      jsTrunc (max (-1) (min 1 q) * 32767) := by
    intro q
    have hb := jsTrunc_bounds (q := max (-1) (min 1 q) * 32767)
      (a := -32767) (b := 32767)
      (by push_cast; exact (clamped_product_bounds q).1)
      (by push_cast; exact (clamped_product_bounds q).2) (by norm_num) (by norm_num)
    exact toInt16_num_eq_jsTrunc (by omega) (by omega)
  cases x <;> simp only [encodeSampleClamped, specClampScale, jsMin, jsMax, jsMulConst]
  · simp [toInt16]
  · have := key 1
    simpa using this
  · have h1 : ((-1 : ℚ)) * 32767 = ((-32767 : ℤ) : ℚ) := by norm_num
    have h2 : max (-1 : ℚ) (-1) * 32767 = ((-32767 : ℤ) : ℚ) := by norm_num
    rw [h1, h2, jsTrunc_intCast,
      toInt16_num_eq_jsTrunc (by rw [jsTrunc_intCast]; norm_num)
        (by rw [jsTrunc_intCast]; norm_num),
      jsTrunc_intCast]
  case num q => exact key q

/-- Every 16-bit store contributes exactly two bytes. -/
theorem int16LEBytes_length (v : ℤ) : (int16LEBytes v).length = 2 := by
  simp [int16LEBytes]

theorem flatMap_int16LEBytes_length (l : List ℤ) :
    (l.flatMap int16LEBytes).length = 2 * l.length := by
  induction l with
  | nil => simp
  | cons a t ih =>
      simp [List.flatMap_cons, ih, int16LEBytes_length]
      ring

/-- The unclamped encoder of `liveService.ts` at sample 2.0:
2.0 * 32767 = 65534 stores as -2 (modulo-2^16 wrap-around). -/
theorem encodeSampleMain_at_two : encodeSampleMain (.num 2) = -2 := by
  have h : (2 : ℚ) * 32767 = ((65534 : ℤ) : ℚ) := by norm_num
  simp only [encodeSampleMain, jsMulConst, h]
  simp only [toInt16, jsTrunc_intCast]
  decide

/-- The specification's clamp-then-scale function at sample 2.0: 32767. -/
theorem specClampScale_at_two : specClampScale (.num 2) = 32767 := by
  have h : max (-1 : ℚ) (min 1 2) * 32767 = ((32767 : ℤ) : ℚ) := by norm_num
  simp only [specClampScale, h, jsTrunc_intCast]

theorem encodeSampleClamped_at_two : encodeSampleClamped (.num 2) = 32767 := by
  rw [encodeSampleClamped_eq_spec]
  exact specClampScale_at_two

theorem encodeSampleClamped_at_one : encodeSampleClamped (.num 1) = 32767 := by
  rw [encodeSampleClamped_eq_spec]
  have h : max (-1 : ℚ) (min 1 1) * 32767 = ((32767 : ℤ) : ℚ) := by norm_num
  simp only [specClampScale, h, jsTrunc_intCast]

theorem encodeSampleClamped_at_negOne : encodeSampleClamped (.num (-1)) = -32767 := by
  rw [encodeSampleClamped_eq_spec]
  have h : max (-1 : ℚ) (min 1 (-1)) * 32767 = ((-32767 : ℤ) : ℚ) := by norm_num
  simp only [specClampScale, h, jsTrunc_intCast]

/-- C2 (counterexample): the `liveService.ts` encoder (`createPcmBlob`,
lines 118-122) does NOT clamp before scaling: at input sample 2.0 it stores
-2 (wrap-around of 65534) where the claimed clamp-then-scale law gives
32767, and its byte output differs from the clamped variant's. -/
theorem c2_main_encoder_not_clamped :
    encodeSampleMain (JSVal.num 2) = -2 ∧
      specClampScale (JSVal.num 2) = 32767 ∧
      encodeSampleMain (JSVal.num 2) ≠ specClampScale (JSVal.num 2) ∧
      createPcmBlobMain [JSVal.num 2] ≠ createPcmBlobClamped [JSVal.num 2] := by
  refine ⟨encodeSampleMain_at_two, specClampScale_at_two, ?_, ?_⟩
  · rw [encodeSampleMain_at_two, specClampScale_at_two]
    decide
  · simp only [createPcmBlobMain, createPcmBlobClamped, List.map_cons, List.map_nil,
      encodeSampleMain_at_two, encodeSampleClamped_at_two]
    decide

/-- C2 (amended): for every sample block, both encoder variants produce
exactly 2 bytes per sample and every stored 16-bit value lies in
[-32768, 32767] (no input is rejected); the clamp-then-scale law holds for
the `part_000`/`part_001` encoder, which coincides exactly with the
specification's clamp-scale function, while the `liveService.ts` encoder
scales without clamping (see the counterexample). -/
theorem c2_pcm_length_range_and_clamp :
    (∀ data : List JSVal, (createPcmBlobMain data).length = 2 * data.length) ∧
      (∀ data : List JSVal, (createPcmBlobClamped data).length = 2 * data.length) ∧
      (∀ x : JSVal, -32768 ≤ encodeSampleMain x ∧ encodeSampleMain x ≤ 32767) ∧
      (∀ x : JSVal, -32768 ≤ encodeSampleClamped x ∧ encodeSampleClamped x ≤ 32767) ∧
      (∀ x : JSVal, encodeSampleClamped x = specClampScale x) := by
  refine ⟨?_, ?_, ?_, ?_, encodeSampleClamped_eq_spec⟩
  · intro data
    rw [createPcmBlobMain, flatMap_int16LEBytes_length, List.length_map]
  · intro data
    rw [createPcmBlobClamped, flatMap_int16LEBytes_length, List.length_map]
  · intro x
    exact toInt16_range _
  · intro x
    exact toInt16_range _

/-- C9: the clamped encoder's range is strictly [-32767, 32767] (the value
-32768 is never produced), input 1.0 maps exactly to 32767 and input -1.0
maps exactly to -32767. The encoding is a pure function of the input block
(`createPcmBlobClamped` is deterministic by construction). -/
theorem c9_clamped_encoder_strict_range :
    (∀ x : JSVal, -32767 ≤ encodeSampleClamped x ∧ encodeSampleClamped x ≤ 32767 ∧
        encodeSampleClamped x ≠ -32768) ∧
      encodeSampleClamped (JSVal.num 1) = 32767 ∧
      encodeSampleClamped (JSVal.num (-1)) = -32767 := by
  refine ⟨?_, encodeSampleClamped_at_one, encodeSampleClamped_at_negOne⟩
  intro x
  obtain ⟨h1, h2⟩ := encodeSampleClamped_range x
  exact ⟨h1, h2, by omega⟩

/-!
## Playback Scheduler

`playAudio` (liveService.ts lines 124-135, part_000 lines 159-180,
part_001 lines 147-168 — the scheduling arithmetic is identical in all
three variants) and `stopAllAudio` (liveService.ts lines 137-141,
part_000 lines 182-188, part_001 lines 170-176 — identical).

An `AudioBufferSourceNode` is modelled by its scheduled start time, its
buffer duration, and whether `stop()` has been forced on it.  The device
clock (`outputAudioContext.currentTime`) is an input to each enqueue.
-/

/-- A scheduled playback buffer handle. -/
structure AudioSource where
  startTime : ℚ
  duration : ℚ
  stopped : Bool
deriving DecidableEq

/-- Scheduler-relevant state: `nextStartTime` and the pending `sources`
set (ordered by insertion, as scheduling order is what the claims are
about). -/
structure SchedulerState where
  nextStartTime : ℚ
  sources : List AudioSource
deriving DecidableEq

/-- `playAudio`: `nextStartTime = max(nextStartTime, currentTime)`;
`source.start(nextStartTime)`; `nextStartTime += duration`;
`sources.add(source)`. -/
def playAudio (st : SchedulerState) (currentTime duration : ℚ) : SchedulerState :=
  let t0 := max st.nextStartTime currentTime
  { nextStartTime := t0 + duration,
    sources := st.sources ++ [{ startTime := t0, duration := duration, stopped := false }] }

/-- `stopAllAudio`: stop every pending source (returned, force-stopped, in
the first component), clear the set, reset `nextStartTime` to 0. -/
def stopAllAudio (st : SchedulerState) : List AudioSource × SchedulerState :=
  (st.sources.map fun s => { s with stopped := true },
   { nextStartTime := 0, sources := [] })

/-- Enqueue a sequence of chunks back-to-back; each chunk carries the
device clock reading at its enqueue and its decoded buffer duration. -/
def enqueueAll (st : SchedulerState) : List (ℚ × ℚ) → SchedulerState
  | [] => st
  | (t, d) :: rest => enqueueAll (playAudio st t d) rest

/-- The sources appended by enqueueing `chunks` starting from
`nextStartTime = ns` (specification device for the proofs below). -/
def sourceList (ns : ℚ) : List (ℚ × ℚ) → List AudioSource
  | [] => []
  | (t, d) :: rest =>
      let s0 := max ns t
      { startTime := s0, duration := d, stopped := false } :: sourceList (s0 + d) rest

/-- "The device clock never exceeds the scheduled timeline": each chunk's
clock reading is at most the schedule position reached before it. -/
def tameClock (ns : ℚ) : List (ℚ × ℚ) → Bool
  | [] => true
  | (t, d) :: rest => decide (t ≤ ns) && tameClock (ns + d) rest

/-- Partial-sum timeline: `sumsFrom a [d1, d2, ...] = [a, a+d1, a+d1+d2, ...]`. -/
def sumsFrom (a : ℚ) : List ℚ → List ℚ
  | [] => []
  | d :: ds => a :: sumsFrom (a + d) ds

theorem enqueueAll_sources (chunks : List (ℚ × ℚ)) :
    ∀ st : SchedulerState,
      (enqueueAll st chunks).sources = st.sources ++ sourceList st.nextStartTime chunks := by
  induction chunks with
  | nil => intro st; simp [enqueueAll, sourceList]
  | cons c rest ih =>
      intro st
      obtain ⟨t, d⟩ := c
      rw [enqueueAll, ih, sourceList]
      simp [playAudio]

theorem sourceList_map_duration (chunks : List (ℚ × ℚ)) :
    ∀ ns : ℚ, (sourceList ns chunks).map (fun s => s.duration) = chunks.map Prod.snd := by
  induction chunks with
  | nil => intro ns; simp [sourceList]
  | cons c rest ih =>
      intro ns
      obtain ⟨t, d⟩ := c
      rw [sourceList]
      simp only [List.map_cons, List.map]
      rw [ih]

/-- Under a tame clock every enqueue starts exactly at the previous
scheduled end: the start times are the partial sums of the durations. -/
theorem sourceList_starts_tame (chunks : List (ℚ × ℚ)) :
    ∀ ns : ℚ, tameClock ns chunks = true →
      (sourceList ns chunks).map (fun s => s.startTime) = sumsFrom ns (chunks.map Prod.snd) := by
  induction chunks with
  | nil => intro ns _; simp [sourceList, sumsFrom]
  | cons c rest ih =>
      intro ns htame
      obtain ⟨t, d⟩ := c
      rw [tameClock, Bool.and_eq_true, decide_eq_true_iff] at htame
      rw [sourceList]
      simp only [List.map_cons, List.map]
      rw [max_eq_left htame.1, ih (ns + d) htame.2]
      rfl

theorem sumsFrom_getD (ds : List ℚ) :
    ∀ (a : ℚ) (n : ℕ), n < ds.length →
      (sumsFrom a ds).getD n 0 = a + (ds.take n).sum := by
  induction ds with
  | nil => intro a n h; simp at h
  | cons d ds ih =>
      intro a n h
      cases n with
      | zero => simp [sumsFrom]
      | succ n =>
          rw [sumsFrom, List.getD_cons_succ, ih (a + d) n (by simpa using h)]
          simp [List.take_succ_cons]
          ring

theorem take_sum_getD (ds : List ℚ) :
    ∀ i : ℕ, i < ds.length → (ds.take (i + 1)).sum = (ds.take i).sum + ds.getD i 0 := by
  induction ds with
  | nil => intro i h; simp at h
  | cons d ds ih =>
      intro i h
      cases i with
      | zero => simp
      | succ i =>
          simp only [List.take_succ_cons, List.sum_cons, List.getD_cons_succ]
          rw [ih i (by simpa using h)]
          ring

theorem take_sum_mono (ds : List ℚ) (hpos : ∀ x ∈ ds, 0 ≤ x) {m n : ℕ} (h : m ≤ n) :
    (ds.take m).sum ≤ (ds.take n).sum := by
  have hn : n = m + (n - m) := by omega
  rw [hn, List.take_add, List.sum_append]
  have : 0 ≤ (((ds.drop m).take (n - m)).sum) := by
    apply List.sum_nonneg
    intro x hx
    exact hpos x (List.drop_subset m ds (List.take_subset _ _ hx))
  linarith

/-- C3: enqueued back-to-back with no intervening `stopAll`, starting from
an empty pending set, and with the device clock never exceeding the
scheduled timeline, the (n+1)-th chunk's scheduled start time equals the
first chunk's start time (`max(nextStartTime, deviceCurrentTime)`) plus
the sum of the durations of the first n chunks; moreover no chunk starts
before an earlier chunk's scheduled end. -/
theorem c3_playAudio_gapless (st : SchedulerState) (t1 d1 : ℚ) (rest : List (ℚ × ℚ))
    (hfresh : st.sources = [])
    (htame : tameClock (max st.nextStartTime t1 + d1) rest = true)
    (hdur : ∀ td ∈ (t1, d1) :: rest, 0 ≤ td.2) :
    (∀ n, n < rest.length + 1 →
      ((enqueueAll st ((t1, d1) :: rest)).sources.map fun s => s.startTime).getD n 0 =
        max st.nextStartTime t1 + ((((t1, d1) :: rest).map Prod.snd).take n).sum) ∧
    (∀ i j, i < j → j < rest.length + 1 →
      ((enqueueAll st ((t1, d1) :: rest)).sources.map fun s => s.startTime).getD i 0 +
        ((enqueueAll st ((t1, d1) :: rest)).sources.map fun s => s.duration).getD i 0 ≤
        ((enqueueAll st ((t1, d1) :: rest)).sources.map fun s => s.startTime).getD j 0) := by
  have hsrc : (enqueueAll st ((t1, d1) :: rest)).sources =
      sourceList st.nextStartTime ((t1, d1) :: rest) := by
    rw [enqueueAll_sources, hfresh, List.nil_append]
  have hstart : ((enqueueAll st ((t1, d1) :: rest)).sources.map fun s => s.startTime) =
      sumsFrom (max st.nextStartTime t1) (((t1, d1) :: rest).map Prod.snd) := by
    rw [hsrc, sourceList]
    simp only [List.map_cons]
    rw [sourceList_starts_tame rest _ htame]
    rfl
  have hdmap : ((enqueueAll st ((t1, d1) :: rest)).sources.map fun s => s.duration) =
      ((t1, d1) :: rest).map Prod.snd := by
    rw [hsrc, sourceList_map_duration]
  have hlen : (((t1, d1) :: rest).map Prod.snd).length = rest.length + 1 := by
    simp only [List.length_map, List.length_cons]
  have hpos : ∀ x ∈ ((t1, d1) :: rest).map Prod.snd, 0 ≤ x := by
    intro x hx
    obtain ⟨td, htd, rfl⟩ := List.mem_map.mp hx
    exact hdur td htd
  constructor
  · intro n hn
    rw [hstart, sumsFrom_getD _ _ n (by rw [hlen]; exact hn)]
  · intro i j hij hj
    rw [hstart, hdmap,
      sumsFrom_getD _ _ i (by rw [hlen]; omega),
      sumsFrom_getD _ _ j (by rw [hlen]; exact hj)]
    have hstep := take_sum_getD (((t1, d1) :: rest).map Prod.snd) i (by rw [hlen]; omega)
    have hmono := take_sum_mono (((t1, d1) :: rest).map Prod.snd) hpos
      (show i + 1 ≤ j by omega)
    linarith

/-- C3 (witness): three chunks of durations 1, 2, 3 enqueued at clock
readings 0, 0, 1 on a fresh scheduler: the third chunk starts at 3 = 1 + 2,
and no chunk starts before the first chunk's scheduled end. -/
theorem c3_playAudio_gapless_witness :
    (((enqueueAll ⟨0, []⟩ [((0 : ℚ), (1 : ℚ)), (0, 2), (1, 3)]).sources.map
        fun s => s.startTime).getD 2 0 =
      max (0 : ℚ) 0 + ((([((0 : ℚ), (1 : ℚ)), (0, 2), (1, 3)]).map Prod.snd).take 2).sum) ∧
    (((enqueueAll ⟨0, []⟩ [((0 : ℚ), (1 : ℚ)), (0, 2), (1, 3)]).sources.map
        fun s => s.startTime).getD 0 0 +
      ((enqueueAll ⟨0, []⟩ [((0 : ℚ), (1 : ℚ)), (0, 2), (1, 3)]).sources.map
        fun s => s.duration).getD 0 0 ≤
      ((enqueueAll ⟨0, []⟩ [((0 : ℚ), (1 : ℚ)), (0, 2), (1, 3)]).sources.map
        fun s => s.startTime).getD 2 0) := by
  have h := c3_playAudio_gapless ⟨0, []⟩ 0 1 [(0, 2), (1, 3)] rfl
    (by norm_num [tameClock]) (by decide)
  exact ⟨h.1 2 (by norm_num), h.2 0 2 (by norm_num) (by norm_num)⟩

/-!
## Session state, callbacks, and the message handler

`LiveState` models the session-scoped fields of `LiveService`: the network
session handle, the microphone stream and its tracks, the capture script
processor, the two audio contexts, the playback scheduler state, and the
two transcript fragment buffers `currentInput` / `currentOutput`.
Nullable references are modelled as presence flags; "open"/"live" flags
model whether the underlying resource is still running.
-/

/-- Transcription direction, the `'input' | 'output'` union type. -/
inductive Direction where
  | input : Direction
  | output : Direction
deriving DecidableEq

/-- One invocation of a `LiveCallbacks` member. -/
inductive CallbackEvent where
  | onTranscription (text : String) (ty : Direction) (isFinal : Bool) : CallbackEvent
  | onStatusChange (status : String) : CallbackEvent
  | onError (msg : String) : CallbackEvent
deriving DecidableEq

/-- Session-scoped state of a `LiveService` instance. -/
structure LiveState where
  sessionRef : Bool
  sessionOpen : Bool
  mediaStreamRef : Bool
  tracksLive : Bool
  scriptProcessorRef : Bool
  processorConnected : Bool
  inputCtxRef : Bool
  inputCtxOpen : Bool
  outputCtxRef : Bool
  outputCtxOpen : Bool
  sched : SchedulerState
  currentInput : String
  currentOutput : String
deriving DecidableEq

/-- `disconnect()` of `src/services/liveService.ts` (lines 143-151):
stop all audio, stop the stream's tracks, detach the script processor,
close the session, close both contexts, null the session promise. The
stream/processor/context references themselves are retained. -/
def disconnectMain (s : LiveState) : LiveState :=
  { s with
    sched := (stopAllAudio s.sched).2,
    tracksLive := false,
    processorConnected := false,
    sessionOpen := false,
    inputCtxOpen := false,
    outputCtxOpen := false,
    sessionRef := false }

/-- `disconnect()` of `src/unnamed/part_000` (lines 190-210) and
`src/unnamed/part_001` (lines 178-196): as `disconnectMain`, and in
addition the stream, processor and context references are nulled. -/
def disconnectFull (s : LiveState) : LiveState :=
  { s with
    sched := (stopAllAudio s.sched).2,
    mediaStreamRef := false,
    tracksLive := false,
    scriptProcessorRef := false,
    processorConnected := false,
    sessionOpen := false,
    inputCtxRef := false,
    inputCtxOpen := false,
    outputCtxRef := false,
    outputCtxOpen := false,
    sessionRef := false }

/-- The `onerror` session callback of `src/services/liveService.ts`
(lines 82-86): report one error, then `disconnect()`. -/
def onerrorMain (s : LiveState) : List CallbackEvent × LiveState :=
  ([CallbackEvent.onError "Connection to Gemini failed."], disconnectMain s)

/-- The `onerror` session callback of `src/unnamed/part_000`
(lines 94-98): report one error, then `disconnect()`. -/
def onerrorFull (s : LiveState) : List CallbackEvent × LiveState :=
  ([CallbackEvent.onError
      "Network connection failed. Please check your internet or API key permissions."],
   disconnectFull s)

/-- The `onerror` session callback of `src/unnamed/part_001`
(lines 83-86): report one error and nothing else — no teardown. -/
def onerrorAlt (s : LiveState) : List CallbackEvent × LiveState :=
  ([CallbackEvent.onError
      "Network or API error occurred. Please verify your connection."], s)

/-- JavaScript truthiness of an optional string (`!apiKey` is taken for
`undefined` and for the empty string). -/
def jsTruthy : Option String → Bool
  | none => false
  | some str => !(str == "")

/-- Outcome of the synchronous prefix of `connect` up to (and including)
the decision to open devices and request the network session. -/
structure ConnectAttempt where
  events : List CallbackEvent
  devicesOpened : Bool
  sessionRequested : Bool
deriving DecidableEq

/-- The credential check of `src/services/liveService.ts` `connect`
(lines 27-34): a missing key reports one error and returns before any
device or session is touched; otherwise devices are opened and the
session is requested (later callbacks arise only from session events). -/
def connectMainKeyCheck (apiKey : Option String) : ConnectAttempt :=
  if jsTruthy apiKey then
    { events := [], devicesOpened := true, sessionRequested := true }
  else
    { events := [CallbackEvent.onError
        "API Key is missing from environment variables (process.env.API_KEY)."],
      devicesOpened := false, sessionRequested := false }

/-- The credential check of `src/unnamed/part_000` `connect`
(lines 26-33): additionally reports status `ERROR` after the error. -/
def connectFullKeyCheck (apiKey : Option String) : ConnectAttempt :=
  if jsTruthy apiKey then
    { events := [], devicesOpened := true, sessionRequested := true }
  else
    { events := [CallbackEvent.onError
        "API Key missing. Please set API_KEY in your environment settings.",
        CallbackEvent.onStatusChange "ERROR"],
      devicesOpened := false, sessionRequested := false }

/-- The synchronous prefix of `connect` in `src/unnamed/part_001`
(lines 23-33): there is NO credential check — the key, present or
absent, is passed straight to the SDK client constructor and the attempt
proceeds unconditionally to open both audio contexts, request the
microphone, and request the network session; no callback fires on this
path regardless of the key. -/
def connectAltPrelude (_apiKey : Option String) : ConnectAttempt :=
  { events := [], devicesOpened := true, sessionRequested := true }

/-- Recognizer for `onError` invocations. -/
def isErrorEvent : CallbackEvent → Bool
  | .onError _ => true
  | _ => false

/-- The `turnComplete` branch of the `onmessage` handler in
`src/services/liveService.ts` (lines 73-78) and `src/unnamed/part_001`
(lines 71-76): emit BOTH finals unconditionally, then clear both buffers.
Result: (emitted events, new currentInput, new currentOutput). -/
def turnCompleteBranch (cin cout : String) : List CallbackEvent × String × String :=
  ([CallbackEvent.onTranscription cin Direction.input true,
    CallbackEvent.onTranscription cout Direction.output true], "", "")

/-- The `turnComplete` branch of `src/unnamed/part_000` (lines 82-87):
emit a final per direction only if that buffer is truthy (non-empty),
then clear both buffers. -/
def turnCompleteBranchCond (cin cout : String) : List CallbackEvent × String × String :=
  ((if cin = "" then [] else [CallbackEvent.onTranscription cin Direction.input true]) ++
     (if cout = "" then [] else [CallbackEvent.onTranscription cout Direction.output true]),
   "", "")

/-- One inbound `LiveServerMessage` reduced to the five signals the
handler inspects; an audio payload is represented by the duration of its
decoded buffer. -/
structure ServerContent where
  audioData : Option ℚ
  inputTranscription : Option String
  outputTranscription : Option String
  turnComplete : Bool
  interrupted : Bool
deriving DecidableEq

/-- The `onmessage` handler of `src/services/liveService.ts`
(lines 60-81), at device clock `t`: play audio if present (a no-op when
the output context is gone), append and report each transcription
fragment, then the unconditional turn-complete branch, then the
interruption branch. -/
def onmessageMain (t : ℚ) (msg : ServerContent) (s0 : LiveState) :
    LiveState × List CallbackEvent :=
  let s1 := match msg.audioData with
    | some dur => if s0.outputCtxRef then { s0 with sched := playAudio s0.sched t dur } else s0
    | none => s0
  let r2 := match msg.inputTranscription with
    | some frag =>
        ({ s1 with currentInput := s1.currentInput ++ frag },
         [CallbackEvent.onTranscription (s1.currentInput ++ frag) Direction.input false])
    | none => (s1, [])
  let r3 := match msg.outputTranscription with
    | some frag =>
        ({ r2.1 with currentOutput := r2.1.currentOutput ++ frag },
         [CallbackEvent.onTranscription (r2.1.currentOutput ++ frag) Direction.output false])
    | none => (r2.1, [])
  let r4 :=
    if msg.turnComplete then
      ({ r3.1 with currentInput := "", currentOutput := "" },
       [CallbackEvent.onTranscription r3.1.currentInput Direction.input true,
        CallbackEvent.onTranscription r3.1.currentOutput Direction.output true])
    else (r3.1, [])
  let s5 := if msg.interrupted then { r4.1 with sched := (stopAllAudio r4.1.sched).2 } else r4.1
  (s5, r2.2 ++ r3.2 ++ r4.2)

/-- The `onmessage` handler of `src/unnamed/part_000` (lines 62-93):
same shape, but the turn-complete branch emits only non-empty finals. -/
def onmessageFull (t : ℚ) (msg : ServerContent) (s0 : LiveState) :
    LiveState × List CallbackEvent :=
  let s1 := match msg.audioData with
    | some dur => if s0.outputCtxRef then { s0 with sched := playAudio s0.sched t dur } else s0
    | none => s0
  let r2 := match msg.inputTranscription with
    | some frag =>
        ({ s1 with currentInput := s1.currentInput ++ frag },
         [CallbackEvent.onTranscription (s1.currentInput ++ frag) Direction.input false])
    | none => (s1, [])
  let r3 := match msg.outputTranscription with
    | some frag =>
        ({ r2.1 with currentOutput := r2.1.currentOutput ++ frag },
         [CallbackEvent.onTranscription (r2.1.currentOutput ++ frag) Direction.output false])
    | none => (r2.1, [])
  let r4 :=
    if msg.turnComplete then
      ({ r3.1 with currentInput := "", currentOutput := "" },
       (if r3.1.currentInput = "" then []
        else [CallbackEvent.onTranscription r3.1.currentInput Direction.input true]) ++
       (if r3.1.currentOutput = "" then []
        else [CallbackEvent.onTranscription r3.1.currentOutput Direction.output true]))
    else (r3.1, [])
  let s5 := if msg.interrupted then { r4.1 with sched := (stopAllAudio r4.1.sched).2 } else r4.1
  (s5, r2.2 ++ r3.2 ++ r4.2)

/-- A fully-populated session state used as a concrete scenario: session
and devices live, two pending playback buffers. -/
def sampleActiveState : LiveState :=
  { sessionRef := true, sessionOpen := true,
    mediaStreamRef := true, tracksLive := true,
    scriptProcessorRef := true, processorConnected := true,
    inputCtxRef := true, inputCtxOpen := true,
    outputCtxRef := true, outputCtxOpen := true,
    sched := { nextStartTime := 5, sources := [⟨0, 2, false⟩, ⟨2, 3, false⟩] },
    currentInput := "", currentOutput := "" }

/-- C1 (counterexample): in `src/services/liveService.ts` (lines 73-78)
the turn-complete handling emits final events even when both buffers are
empty — two events with empty text — contradicting "if both buffers are
empty no events are emitted". -/
theorem c1_turnComplete_empty_still_emits :
    (turnCompleteBranch "" "").1 ≠ [] ∧ (turnCompleteBranch "" "").1.length = 2 := by
  constructor
  · simp [turnCompleteBranch]
  · rfl

/-- C1 (amended): the `liveService.ts`/`part_001` turn-complete handling
emits final events for BOTH directions unconditionally (possibly with
empty text) and clears both buffers; the `part_000` variant emits a final
for a direction exactly when that direction's buffer is non-empty — in
particular nothing when both are empty — and also clears both buffers. -/
theorem c1_turnComplete_characterization :
    (∀ cin cout : String,
      (turnCompleteBranch cin cout).1 =
        [CallbackEvent.onTranscription cin Direction.input true,
         CallbackEvent.onTranscription cout Direction.output true] ∧
      (turnCompleteBranch cin cout).2 = ("", "")) ∧
    (∀ cin cout : String,
      ((turnCompleteBranchCond cin cout).1 = [] ↔ cin = "" ∧ cout = "") ∧
      (CallbackEvent.onTranscription cin Direction.input true ∈
          (turnCompleteBranchCond cin cout).1 ↔ cin ≠ "") ∧
      (CallbackEvent.onTranscription cout Direction.output true ∈
          (turnCompleteBranchCond cin cout).1 ↔ cout ≠ "") ∧
      (∀ e ∈ (turnCompleteBranchCond cin cout).1,
          e = CallbackEvent.onTranscription cin Direction.input true ∨
          e = CallbackEvent.onTranscription cout Direction.output true) ∧
      (turnCompleteBranchCond cin cout).2 = ("", "")) := by
  constructor
  · intro cin cout
    exact ⟨rfl, rfl⟩
  · intro cin cout
    by_cases hc : cin = "" <;> by_cases ho : cout = "" <;>
      simp [turnCompleteBranchCond, hc, ho]

/-- C5 (counterexample): the `onerror` handler of `src/unnamed/part_001`
(lines 83-86) reports the error but performs NO teardown: on a live
session state the capture tracks stay live, the pending playback set
stays non-empty, and the state differs from the disconnected one. -/
theorem c5_onerror_alt_no_teardown :
    (onerrorAlt sampleActiveState).2 = sampleActiveState ∧
      (onerrorAlt sampleActiveState).2.tracksLive = true ∧
      (onerrorAlt sampleActiveState).2.sessionOpen = true ∧
      (onerrorAlt sampleActiveState).2.sched.sources ≠ [] ∧
      (onerrorAlt sampleActiveState).2 ≠ disconnectMain sampleActiveState := by
  refine ⟨rfl, rfl, rfl, ?_, ?_⟩
  · simp [onerrorAlt, sampleActiveState]
  · simp [onerrorAlt, disconnectMain, sampleActiveState, stopAllAudio]

/-- C5 (amended): on a session-error event the `liveService.ts` handler
(lines 82-86) and the `part_000` handler (lines 94-98) invoke `onError`
exactly once with a diagnostic and then perform the full `disconnect`
teardown, from every session state; the `part_001` handler (lines 83-86)
invokes `onError` exactly once but leaves the session state untouched. -/
theorem c5_onerror_teardown_characterization :
    (∀ s : LiveState,
      ((onerrorMain s).1.filter isErrorEvent).length = 1 ∧
      (onerrorMain s).2 = disconnectMain s ∧
      (onerrorMain s).2.tracksLive = false ∧
      (onerrorMain s).2.processorConnected = false ∧
      (onerrorMain s).2.sessionOpen = false ∧
      (onerrorMain s).2.sessionRef = false ∧
      (onerrorMain s).2.inputCtxOpen = false ∧
      (onerrorMain s).2.outputCtxOpen = false ∧
      (onerrorMain s).2.sched.sources = [] ∧
      (onerrorMain s).2.sched.nextStartTime = 0) ∧
    (∀ s : LiveState,
      ((onerrorFull s).1.filter isErrorEvent).length = 1 ∧
      (onerrorFull s).2 = disconnectFull s ∧
      (onerrorFull s).2.tracksLive = false ∧
      (onerrorFull s).2.mediaStreamRef = false ∧
      (onerrorFull s).2.sessionRef = false ∧
      (onerrorFull s).2.sched.sources = []) ∧
    (∀ s : LiveState,
      ((onerrorAlt s).1.filter isErrorEvent).length = 1 ∧ (onerrorAlt s).2 = s) := by
  refine ⟨fun s => ?_, fun s => ?_, fun s => ?_⟩ <;>
    simp [onerrorMain, onerrorFull, onerrorAlt, disconnectMain, disconnectFull,
      stopAllAudio, isErrorEvent]

/-- C6 (counterexample): `src/unnamed/part_001`'s `connect` (lines 23-33)
performs no credential check: with the key absent the attempt still opens
both audio devices and requests the network session, and invokes no
`onError` on that path — contradicting "onError is invoked exactly once
and connect returns without opening any audio device or network
session". -/
theorem c6_connect_alt_no_check :
    jsTruthy none = false ∧
      (connectAltPrelude none).devicesOpened = true ∧
      (connectAltPrelude none).sessionRequested = true ∧
      ((connectAltPrelude none).events.filter isErrorEvent).length = 0 :=
  ⟨rfl, rfl, rfl, rfl⟩

/-- C6 (amended): when the API key is absent (or empty, which JavaScript
also treats as missing), the two variants that perform the credential
check (`liveService.ts` lines 27-34 and `part_000` lines 26-33) invoke
`onError` exactly once, open no audio device, request no network session,
and never invoke `onStatusChange('LISTENING')` for that attempt; the
`part_001` variant performs no check — it opens the devices and requests
the session regardless, with no `onError` on that path. -/
theorem c6_connect_missing_key_by_variant (k : Option String)
    (hk : jsTruthy k = false) :
    ((connectMainKeyCheck k).events.filter isErrorEvent).length = 1 ∧
    (connectMainKeyCheck k).devicesOpened = false ∧
    (connectMainKeyCheck k).sessionRequested = false ∧
    CallbackEvent.onStatusChange "LISTENING" ∉ (connectMainKeyCheck k).events ∧
    ((connectFullKeyCheck k).events.filter isErrorEvent).length = 1 ∧
    (connectFullKeyCheck k).devicesOpened = false ∧
    (connectFullKeyCheck k).sessionRequested = false ∧
    CallbackEvent.onStatusChange "LISTENING" ∉ (connectFullKeyCheck k).events ∧
    (connectAltPrelude k).devicesOpened = true ∧
    (connectAltPrelude k).sessionRequested = true ∧
    ((connectAltPrelude k).events.filter isErrorEvent).length = 0 := by
  simp [connectMainKeyCheck, connectFullKeyCheck, connectAltPrelude, hk, isErrorEvent]

/-- C6 (witness): the three connect preludes at a genuinely absent key. -/
theorem c6_connect_missing_key_by_variant_witness :
    jsTruthy none = false ∧
      (((connectMainKeyCheck none).events.filter isErrorEvent).length = 1 ∧
        (connectMainKeyCheck none).devicesOpened = false ∧
        (connectMainKeyCheck none).sessionRequested = false ∧
        CallbackEvent.onStatusChange "LISTENING" ∉ (connectMainKeyCheck none).events ∧
        ((connectFullKeyCheck none).events.filter isErrorEvent).length = 1 ∧
        (connectFullKeyCheck none).devicesOpened = false ∧
        (connectFullKeyCheck none).sessionRequested = false ∧
        CallbackEvent.onStatusChange "LISTENING" ∉ (connectFullKeyCheck none).events ∧
        (connectAltPrelude none).devicesOpened = true ∧
        (connectAltPrelude none).sessionRequested = true ∧
        ((connectAltPrelude none).events.filter isErrorEvent).length = 0) :=
  ⟨rfl, c6_connect_missing_key_by_variant none rfl⟩

/-- C7: `disconnect` is idempotent in every variant — a second call
produces exactly the same state — and after it the capture tracks are
stopped, the processor is detached, the session is closed and nulled,
the contexts are closed, and no playback is pending. -/
theorem c7_disconnect_idempotent :
    (∀ s : LiveState, disconnectMain (disconnectMain s) = disconnectMain s) ∧
    (∀ s : LiveState, disconnectFull (disconnectFull s) = disconnectFull s) ∧
    (∀ s : LiveState, disconnectFull (disconnectMain s) = disconnectFull s ∧
      disconnectMain (disconnectFull s) = disconnectFull s) ∧
    (∀ s : LiveState,
      (disconnectMain s).tracksLive = false ∧
      (disconnectMain s).processorConnected = false ∧
      (disconnectMain s).sessionOpen = false ∧
      (disconnectMain s).sessionRef = false ∧
      (disconnectMain s).inputCtxOpen = false ∧
      (disconnectMain s).outputCtxOpen = false ∧
      (disconnectMain s).sched.sources = [] ∧
      (disconnectMain s).sched.nextStartTime = 0) := by
  refine ⟨fun s => rfl, fun s => rfl, fun s => ⟨rfl, rfl⟩, fun s => ?_⟩
  simp [disconnectMain, stopAllAudio]

/-- C10: an inbound message carrying none of the five signals (no audio
payload, no input or output transcription, no turn-complete, no
interruption) leaves the whole session state unchanged — fragment
buffers, pending playback set, and next scheduled start — and invokes no
callbacks, in both handler variants. -/
theorem c10_onmessage_frame (t : ℚ) (s : LiveState) :
    onmessageMain t
        { audioData := none, inputTranscription := none, outputTranscription := none,
          turnComplete := false, interrupted := false } s = (s, []) ∧
      onmessageFull t
        { audioData := none, inputTranscription := none, outputTranscription := none,
          turnComplete := false, interrupted := false } s = (s, []) :=
  ⟨rfl, rfl⟩

/-!
## Transcript fragment accumulation (C8)

Between two consecutive turn-complete signals a direction's buffer starts
empty and is only ever appended to (liveService.ts lines 64-71, part_000
lines 70-79, part_001 lines 58-68 — identical in all variants).
`appendFragments buf fs` is the list of partial texts reported by the
successive `onTranscription(..., isFinal=false)` calls when the fragments
`fs` arrive with the buffer initially `buf`.
-/

/-- The successive accumulated texts reported as partials. -/
def appendFragments (buf : String) : List String → List String
  | [] => []
  | f :: fs => (buf ++ f) :: appendFragments (buf ++ f) fs

/-- `a` is a prefix of `b` as strings. -/
def IsPrefixStr (a b : String) : Prop := ∃ t : String, a ++ t = b

theorem str_append_assoc (a b c : String) : a ++ b ++ c = a ++ (b ++ c) := by
  apply String.ext
  simp [String.data_append, List.append_assoc]

theorem IsPrefixStr_trans {a b c : String} (h1 : IsPrefixStr a b)
    (h2 : IsPrefixStr b c) : IsPrefixStr a c := by
  obtain ⟨t1, rfl⟩ := h1
  obtain ⟨t2, rfl⟩ := h2
  exact ⟨t1 ++ t2, (str_append_assoc a t1 t2).symm⟩

theorem getD_mem_of_lt {α : Type} (d : α) :
    ∀ (l : List α) (n : ℕ), n < l.length → l.getD n d ∈ l := by
  intro l
  induction l with
  | nil => intro n h; simp at h
  | cons a t ih =>
      intro n h
      cases n with
      | zero => simp
      | succ n =>
          rw [List.getD_cons_succ]
          exact List.mem_cons_of_mem a (ih n (by simpa using h))

/-- The starting buffer is a prefix of every partial text it produces. -/
theorem appendFragments_mem_isPre (fs : List String) :
    ∀ (buf p : String), p ∈ appendFragments buf fs → IsPrefixStr buf p := by
  induction fs with
  | nil => intro buf p hp; simp [appendFragments] at hp
  | cons f fs ih =>
      intro buf p hp
      rw [appendFragments, List.mem_cons] at hp
      rcases hp with rfl | hp
      · exact ⟨f, rfl⟩
      · exact IsPrefixStr_trans ⟨f, rfl⟩ (ih (buf ++ f) p hp)

theorem appendFragments_chain (fs : List String) :
    ∀ (buf : String) (i j : ℕ), i ≤ j → j < (appendFragments buf fs).length →
      IsPrefixStr ((appendFragments buf fs).getD i "")
        ((appendFragments buf fs).getD j "") := by
  induction fs with
  | nil => intro buf i j hij hj; simp [appendFragments] at hj
  | cons f fs ih =>
      intro buf i j hij hj
      rw [appendFragments] at hj ⊢
      cases i with
      | zero =>
          cases j with
          | zero =>
              rw [List.getD_cons_zero]
              exact ⟨"", String.append_empty _⟩
          | succ j =>
              rw [List.getD_cons_zero, List.getD_cons_succ]
              exact appendFragments_mem_isPre fs (buf ++ f) _
                (getD_mem_of_lt "" _ j (by simpa using hj))
      | succ i =>
          cases j with
          | zero => omega
          | succ j =>
              rw [List.getD_cons_succ, List.getD_cons_succ]
              exact ih (buf ++ f) i j (by omega) (by simpa using hj)

/-- C8: a message carrying only an input-direction fragment appends it to
the buffer and reports the accumulated text as a partial (isFinal=false);
iterating this from the empty buffer left by a turn-complete, the
successive partial texts form a chain in which each earlier text is a
prefix of each later text. -/
theorem c8_partials_prefix_chain :
    (∀ (t : ℚ) (s : LiveState) (frag : String),
      onmessageMain t
          { audioData := none, inputTranscription := some frag,
            outputTranscription := none, turnComplete := false, interrupted := false } s =
        ({ s with currentInput := s.currentInput ++ frag },
         [CallbackEvent.onTranscription (s.currentInput ++ frag) Direction.input false])) ∧
    (∀ (fs : List String) (i j : ℕ), i ≤ j → j < (appendFragments "" fs).length →
      IsPrefixStr ((appendFragments "" fs).getD i "") ((appendFragments "" fs).getD j "")) :=
  ⟨fun _ _ _ => rfl, fun fs i j hij hj => appendFragments_chain fs "" i j hij hj⟩

/-- C8 (witness): fragments "Hel","lo" — the first partial "Hel" is a
prefix of the second partial "Hello". -/
theorem c8_partials_prefix_chain_witness :
    (0 : ℕ) ≤ 1 ∧ 1 < (appendFragments "" ["Hel", "lo"]).length ∧
      IsPrefixStr ((appendFragments "" ["Hel", "lo"]).getD 0 "")
        ((appendFragments "" ["Hel", "lo"]).getD 1 "") :=
  ⟨by decide, by decide, c8_partials_prefix_chain.2 ["Hel", "lo"] 0 1 (by decide) (by decide)⟩

/-- C4: after `stopAllAudio` every pending buffer has been force-stopped
(one stop per pending buffer), the pending set is empty, `nextStartTime`
is reset to 0, and a subsequent enqueue at device time `t ≥ 0` schedules
exactly at `t` (not at any prior `nextStartTime`); an inbound message
carrying an interruption signal performs exactly this `stopAllAudio` on
the session's scheduler and invokes no callbacks. -/
theorem c4_stopAllAudio_resets (st : SchedulerState) (t d : ℚ) (ls : LiveState)
    (ht : 0 ≤ t) :
    (∀ s ∈ (stopAllAudio st).1, s.stopped = true) ∧
    (stopAllAudio st).1.length = st.sources.length ∧
    (stopAllAudio st).2.sources = [] ∧
    (stopAllAudio st).2.nextStartTime = 0 ∧
    (playAudio (stopAllAudio st).2 t d).sources =
      [{ startTime := t, duration := d, stopped := false }] ∧
    onmessageMain t
        { audioData := none, inputTranscription := none, outputTranscription := none,
          turnComplete := false, interrupted := true } ls =
      ({ ls with sched := (stopAllAudio ls.sched).2 }, []) := by
  refine ⟨?_, ?_, rfl, rfl, ?_, rfl⟩
  · intro s hs
    simp only [stopAllAudio, List.mem_map] at hs
    obtain ⟨a, _, rfl⟩ := hs
    rfl
  · simp [stopAllAudio]
  · simp only [playAudio, stopAllAudio, List.nil_append]
    rw [max_eq_right ht]

/-- C4 (witness): a scheduler with two pending buffers and a future
timeline position 10; after `stopAllAudio` both returned handles are
stopped, the set is empty, the timeline is 0, an enqueue at device time 3
starts at 3, and an interrupted message on the sample session state stops
its playback with no callbacks. -/
theorem c4_stopAllAudio_resets_witness :
    (0 : ℚ) ≤ 3 ∧
    ((∀ s ∈ (stopAllAudio ⟨10, [⟨0, 4, false⟩, ⟨4, 6, false⟩]⟩).1, s.stopped = true) ∧
    (stopAllAudio (⟨10, [⟨0, 4, false⟩, ⟨4, 6, false⟩]⟩ : SchedulerState)).1.length =
      (([⟨0, 4, false⟩, ⟨4, 6, false⟩] : List AudioSource)).length ∧
    (stopAllAudio (⟨10, [⟨0, 4, false⟩, ⟨4, 6, false⟩]⟩ : SchedulerState)).2.sources = [] ∧
    (stopAllAudio (⟨10, [⟨0, 4, false⟩, ⟨4, 6, false⟩]⟩ : SchedulerState)).2.nextStartTime = 0 ∧
    (playAudio (stopAllAudio ⟨10, [⟨0, 4, false⟩, ⟨4, 6, false⟩]⟩).2 3 2).sources =
      [{ startTime := 3, duration := 2, stopped := false }] ∧
    onmessageMain 3
        { audioData := none, inputTranscription := none, outputTranscription := none,
          turnComplete := false, interrupted := true } sampleActiveState =
      ({ sampleActiveState with sched := (stopAllAudio sampleActiveState.sched).2 }, [])) :=
  ⟨by norm_num,
   c4_stopAllAudio_resets ⟨10, [⟨0, 4, false⟩, ⟨4, 6, false⟩]⟩ 3 2 sampleActiveState
     (by norm_num)⟩

/-- C1 (witness): concrete buffers — unconditional variant emits both
finals for ("Hello","Hola"); conditional variant with buffers
("Hello","") emits the input final, and every emitted event is one of the
two possible finals. -/
theorem c1_turnComplete_characterization_witness :
    (turnCompleteBranch "Hello" "Hola").1 =
      [CallbackEvent.onTranscription "Hello" Direction.input true,
       CallbackEvent.onTranscription "Hola" Direction.output true] ∧
    CallbackEvent.onTranscription "Hello" Direction.input true ∈
      (turnCompleteBranchCond "Hello" "").1 ∧
    (CallbackEvent.onTranscription "Hello" Direction.input true =
        CallbackEvent.onTranscription "Hello" Direction.input true ∨
      CallbackEvent.onTranscription "Hello" Direction.input true =
        CallbackEvent.onTranscription "" Direction.output true) :=
  ⟨(c1_turnComplete_characterization.1 "Hello" "Hola").1,
   (c1_turnComplete_characterization.2 "Hello" "").2.1.mpr (by decide),
   (c1_turnComplete_characterization.2 "Hello" "").2.2.2.1 _
     ((c1_turnComplete_characterization.2 "Hello" "").2.1.mpr (by decide))⟩
